import Mathlib

/-!
# Verification of the Tune-Stats dashboard core

Shallow embedding of the filtering and aggregation pipeline of the
Tune-Stats music dashboard (`Filter_component.py`, the chart components and
the card components), together with proofs of the behavioural properties
stated in its specification.

Modelling conventions:
* a pandas cell that may be NaN/missing is an `Option` value; every numeric
  comparison against `none` is `false`, exactly as comparisons against NaN
  are false in pandas;
* numeric data is embedded as `ℚ` (the source arithmetic used by the claims
  is order comparisons, sums and divisions, which are exact);
* a Python exception is an `Except.error`;
* `pd.DataFrame` rows are a `List Row`, kept in order; a dataframe column
  that may be absent (`"popularity" in df.columns` checks in
  `filter_data`) is a presence flag on `Table`.
-/

namespace TuneStats

/-- Decidable equality of `Except` results, used to evaluate the embedded
pipeline at concrete inputs. -/
instance {ε α : Type} [DecidableEq ε] [DecidableEq α] : DecidableEq (Except ε α) := fun a b =>
  match a, b with
  | .error x, .error y =>
    if h : x = y then isTrue (by rw [h]) else isFalse (fun hc => by cases hc; exact h rfl)
  | .ok x, .ok y =>
    if h : x = y then isTrue (by rw [h]) else isFalse (fun hc => by cases hc; exact h rfl)
  | .error _, .ok _ => isFalse (fun hc => by cases hc)
  | .ok _, .error _ => isFalse (fun hc => by cases hc)

/-- One row of the track dataset (`data.csv` as loaded by `data.py`).
Numeric audio-feature cells are `Option ℚ` (`none` = NaN); `genres` is the
serialized genre-list string column and `artists` the artist name, both
nullable. -/
structure Row where
  genres : Option String
  artists : Option String
  popularity : Option ℚ
  energy : Option ℚ
  danceability : Option ℚ
  valence : Option ℚ
  tempo : Option ℚ
  duration_ms : Option ℚ
  acousticness : Option ℚ
  instrumentalness : Option ℚ
  liveness : Option ℚ
  loudness : Option ℚ
  speechiness : Option ℚ
  key : Option ℕ
  mode : Option ℕ
deriving DecidableEq

/-- A row with every cell missing; concrete rows are built by structure
update from it. -/
def blankRow : Row :=
  { genres := none, artists := none, popularity := none, energy := none
    danceability := none, valence := none, tempo := none, duration_ms := none
    acousticness := none, instrumentalness := none, liveness := none
    loudness := none, speechiness := none, key := none, mode := none }

/-- A dataframe: the rows plus presence flags for the numeric columns whose
presence `filter_data` tests with `"col" in df.columns`.  The `genres` and
`artists` columns are accessed unconditionally by the source, so they are
always present. -/
structure Table where
  hasPopularity : Bool
  hasEnergy : Bool
  hasDanceability : Bool
  hasValence : Bool
  hasTempo : Bool
  hasDurationMs : Bool
  rows : List Row
deriving DecidableEq

/-- The 14 filter-control values handed to `filter_data` (2 multi-selects
and 6 numeric min/max pairs).  The numeric values are the result of the
`float(...)` coercions in the source. -/
structure Filters where
  genre_multiselect_filter : List String
  artist_multiselect_filter : List String
  popularity_min : ℚ
  popularity_max : ℚ
  energy_min : ℚ
  energy_max : ℚ
  danceability_min : ℚ
  danceability_max : ℚ
  valence_min : ℚ
  valence_max : ℚ
  tempo_min : ℚ
  tempo_max : ℚ
  duration_min : ℚ
  duration_max : ℚ
deriving DecidableEq

/-- `v >= bound` on a nullable cell: false for NaN, as in pandas. -/
def cmpGE (v : Option ℚ) (bound : ℚ) : Bool :=
  match v with
  | none => false
  | some q => bound ≤ q

/-- `v <= bound` on a nullable cell: false for NaN, as in pandas. -/
def cmpLE (v : Option ℚ) (bound : ℚ) : Bool :=
  match v with
  | none => false
  | some q => q ≤ bound

/-- `needle` starts the character list `hay`. -/
def charsStart : List Char → List Char → Bool
  | c :: cs, d :: ds => c = d && charsStart cs ds
  | [], _ => true
  | _, _ => false

/-- `needle` occurs contiguously inside `hay`. -/
def charsInfix (needle : List Char) : List Char → Bool
  | [] => needle.isEmpty
  | d :: ds => charsStart needle (d :: ds) || charsInfix needle ds

/-- Python substring test `needle in hay` on strings. -/
def substrB (needle hay : String) : Bool :=
  charsInfix needle.toList hay.toList

/-- The genre-mask lambda of `Filter_component.filter_data` (line 289):
`any(genre in x for genre in selected_genres) if x and x != "[]" else False`.
A NaN cell (`none`) is truthy in Python and unequal to `"[]"`, so the
generator is evaluated and `genre in nan` raises
`TypeError: argument of type 'float' is not iterable`. -/
def genreMask (selected : List String) (x : Option String) : Except String Bool :=
  match x with
  | none => .error "TypeError: argument of type float is not iterable"
  | some s =>
    .ok (if s ≠ "" ∧ s ≠ "[]" then selected.any (fun g => substrB g s) else false)

/-- `df[mask]` where the boolean mask is produced by a fallible
`Series.apply`: evaluate the predicate on every row in order, propagating
the first exception, and keep the rows on which it returned true. -/
def exceptFilter (p : Row → Except String Bool) : List Row → Except String (List Row)
  | [] => .ok []
  | r :: rs =>
    match p r with
    | .error e => .error e
    | .ok b =>
      match exceptFilter p rs with
      | .error e => .error e
      | .ok rest => .ok (if b then r :: rest else rest)

/-- `len(filters["genre_multiselect_filter"]) > 0 and "all" not in ...`. -/
def genreActive (F : Filters) : Bool :=
  decide (0 < F.genre_multiselect_filter.length)
    && !F.genre_multiselect_filter.contains "all"

/-- `len(filters["artist_multiselect_filter"]) > 0 and "all" not in ...`. -/
def artistActive (F : Filters) : Bool :=
  decide (0 < F.artist_multiselect_filter.length)
    && !F.artist_multiselect_filter.contains "all"

/-- The genre step of `filter_data` (lines 287-290). -/
def genreStep (F : Filters) (rows : List Row) : Except String (List Row) :=
  if genreActive F then
    exceptFilter (fun r => genreMask F.genre_multiselect_filter r.genres) rows
  else .ok rows

/-- Keep rows passing `p` when the guard `c` holds, otherwise leave the
frame unchanged; one `if "col" in df.columns: df = df[...]` statement. -/
def condFilter (c : Bool) (p : Row → Bool) (rows : List Row) : List Row :=
  if c then rows.filter p else rows

/-- A sequence of guarded filters applied left to right. -/
def condFilters (ps : List (Bool × (Row → Bool))) (rows : List Row) : List Row :=
  ps.foldl (fun acc cp => condFilter cp.1 cp.2 acc) rows

/-- The artist-membership predicate `df["artists"].isin(selected)`:
false on NaN. -/
def artistPred (selected : List String) (r : Row) : Bool :=
  match r.artists with
  | none => false
  | some a => selected.contains a

/-- The duration predicate of lines 322-324:
`(df["duration_ms"]/1000 >= min) & (df["duration_ms"]/1000 <= max)`. -/
def durationPred (mn mx : ℚ) (r : Row) : Bool :=
  cmpGE (r.duration_ms.map (fun d => d / 1000)) mn
    && cmpLE (r.duration_ms.map (fun d => d / 1000)) mx

/-- The pure tail of `filter_data` after the genre step, one entry per
`df = df[...]` statement of lines 293-324, in source order. -/
def filterSpec (T : Table) (F : Filters) : List (Bool × (Row → Bool)) :=
  [ (artistActive F, artistPred F.artist_multiselect_filter)
  , (T.hasPopularity, fun r => cmpGE r.popularity F.popularity_min)
  , (T.hasPopularity, fun r => cmpLE r.popularity F.popularity_max)
  , (T.hasEnergy, fun r => cmpGE r.energy F.energy_min)
  , (T.hasEnergy, fun r => cmpLE r.energy F.energy_max)
  , (T.hasDanceability, fun r => cmpGE r.danceability F.danceability_min)
  , (T.hasDanceability, fun r => cmpLE r.danceability F.danceability_max)
  , (T.hasValence, fun r => cmpGE r.valence F.valence_min)
  , (T.hasValence, fun r => cmpLE r.valence F.valence_max)
  , (T.hasTempo, fun r => cmpGE r.tempo F.tempo_min)
  , (T.hasTempo, fun r => cmpLE r.tempo F.tempo_max)
  , (T.hasDurationMs, durationPred F.duration_min F.duration_max) ]

/-- `Filter_component.filter_data` (lines 280-329): the genre mask (which
can raise), then the artist and numeric range filters in source order.
The input frame is never mutated (`df = df.copy()`); the flags of the
result are those of the input. -/
def filter_data (T : Table) (F : Filters) : Except String Table :=
  match genreStep F T.rows with
  | .error e => .error e
  | .ok rows1 => .ok { T with rows := condFilters (filterSpec T F) rows1 }

/-- The default ("no-op") filter set: both multi-selects at the `"all"`
sentinel and every numeric range at its full-range default, as laid out in
`Filter_component.component` (lines 87-98 and the dropdown defaults). -/
def noopFilters : Filters :=
  { genre_multiselect_filter := ["all"],
    artist_multiselect_filter := ["all"],
    popularity_min := 0, popularity_max := 100,
    energy_min := 0, energy_max := 1,
    danceability_min := 0, danceability_max := 1,
    valence_min := 0, valence_max := 1,
    tempo_min := 0, tempo_max := 220,
    duration_min := 18, duration_max := 5400 }

/-- The count pair shown by `Filter_component.display_count`
(lines 331-341): filtered row count and total row count. -/
def displayCounts (T : Table) (F : Filters) : Except String (ℕ × ℕ) :=
  (filter_data T F).map fun T2 => (T2.rows.length, T.rows.length)

/-! ## Basic lemmas about the filter pipeline -/

theorem exceptFilter_ok_sublist {p : Row → Except String Bool}
    {rows out : List Row} (h : exceptFilter p rows = .ok out) :
    out.Sublist rows := by
  induction rows generalizing out with
  | nil =>
    simp only [exceptFilter] at h
    cases h
    exact List.Sublist.refl _
  | cons r rs ih =>
    simp only [exceptFilter] at h
    cases hp : p r with
    | error e => rw [hp] at h; cases h
    | ok b =>
      rw [hp] at h
      cases hrec : exceptFilter p rs with
      | error e => rw [hrec] at h; cases h
      | ok rest =>
        rw [hrec] at h
        cases h
        cases b with
        | true => exact List.Sublist.cons₂ r (ih hrec)
        | false => exact List.Sublist.cons r (ih hrec)

theorem exceptFilter_ok_mem {p : Row → Except String Bool}
    {rows out : List Row} (h : exceptFilter p rows = .ok out) :
    ∀ r ∈ out, p r = .ok true := by
  induction rows generalizing out with
  | nil =>
    simp only [exceptFilter] at h
    cases h
    intro r hr
    cases hr
  | cons r rs ih =>
    simp only [exceptFilter] at h
    cases hp : p r with
    | error e => rw [hp] at h; cases h
    | ok b =>
      rw [hp] at h
      cases hrec : exceptFilter p rs with
      | error e => rw [hrec] at h; cases h
      | ok rest =>
        rw [hrec] at h
        cases h
        cases b with
        | true =>
          intro x hx
          rcases List.mem_cons.mp hx with hx | hx
          · subst hx; exact hp
          · exact ih hrec x hx
        | false => exact fun x hx => ih hrec x hx

theorem exceptFilter_of_forall {p : Row → Except String Bool}
    {rows : List Row} (h : ∀ r ∈ rows, p r = .ok true) :
    exceptFilter p rows = .ok rows := by
  induction rows with
  | nil => rfl
  | cons r rs ih =>
    have hr : p r = .ok true := h r (List.mem_cons_self r rs)
    have hrs : exceptFilter p rs = .ok rs :=
      ih fun x hx => h x (List.mem_cons_of_mem r hx)
    simp [exceptFilter, hr, hrs]

theorem condFilter_sublist (c : Bool) (p : Row → Bool) (rows : List Row) :
    (condFilter c p rows).Sublist rows := by
  cases c with
  | true =>
    rw [condFilter, if_pos rfl]
    exact List.filter_sublist rows
  | false => simp [condFilter]

theorem condFilters_sublist (ps : List (Bool × (Row → Bool))) (rows : List Row) :
    (condFilters ps rows).Sublist rows := by
  induction ps generalizing rows with
  | nil => simp [condFilters]
  | cons cp ps ih =>
    exact List.Sublist.trans (ih (condFilter cp.1 cp.2 rows))
      (condFilter_sublist cp.1 cp.2 rows)

theorem condFilters_mem {ps : List (Bool × (Row → Bool))} {rows : List Row}
    {r : Row} (h : r ∈ condFilters ps rows) :
    r ∈ rows ∧ ∀ cp ∈ ps, cp.1 = true → cp.2 r = true := by
  induction ps generalizing rows with
  | nil =>
    simp only [condFilters, List.foldl_nil] at h
    exact ⟨h, by intro cp hcp; cases hcp⟩
  | cons cp ps ih =>
    have h' : r ∈ condFilter cp.1 cp.2 rows
        ∧ ∀ cq ∈ ps, cq.1 = true → cq.2 r = true := ih h
    refine ⟨?_, ?_⟩
    · exact (condFilter_sublist cp.1 cp.2 rows).subset h'.1
    · intro cq hcq hcq1
      rcases List.mem_cons.mp hcq with hcq | hcq
      · subst hcq
        have hin := h'.1
        rw [condFilter, hcq1] at hin
        simp only [if_pos rfl] at hin
        exact (List.mem_filter.mp (by simpa using hin)).2
      · exact h'.2 cq hcq hcq1

theorem condFilters_of_forall {ps : List (Bool × (Row → Bool))} {rows : List Row}
    (h : ∀ r ∈ rows, ∀ cp ∈ ps, cp.1 = true → cp.2 r = true) :
    condFilters ps rows = rows := by
  induction ps generalizing rows with
  | nil => simp [condFilters]
  | cons cp ps ih =>
    have hstep : condFilter cp.1 cp.2 rows = rows := by
      cases hc : cp.1 with
      | false => simp [condFilter]
      | true =>
        simp only [condFilter, if_pos rfl]
        exact List.filter_eq_self.mpr fun r hr =>
          h r hr cp (List.mem_cons_self cp ps) hc
    show condFilters ps (condFilter cp.1 cp.2 rows) = rows
    rw [hstep]
    exact ih fun r hr cq hcq => h r hr cq (List.mem_cons_of_mem cp hcq)

theorem condFilters_nil (ps : List (Bool × (Row → Bool))) :
    condFilters ps [] = [] := by
  induction ps with
  | nil => rfl
  | cons cp ps ih =>
    show condFilters ps (condFilter cp.1 cp.2 []) = []
    cases cp.1 <;> simpa [condFilter] using ih

theorem genreStep_ok_sublist {F : Filters} {rows out : List Row}
    (h : genreStep F rows = .ok out) : out.Sublist rows := by
  unfold genreStep at h
  by_cases hc : genreActive F = true
  · rw [if_pos hc] at h
    exact exceptFilter_ok_sublist h
  · rw [if_neg hc] at h
    cases h
    exact List.Sublist.refl _

theorem genreStep_idem {F : Filters} {rows out kept : List Row}
    (h : genreStep F rows = .ok out) (hsub : kept.Sublist out) :
    genreStep F kept = .ok kept := by
  unfold genreStep at h ⊢
  by_cases hc : genreActive F = true
  · rw [if_pos hc] at h ⊢
    exact exceptFilter_of_forall fun r hr =>
      exceptFilter_ok_mem h r (hsub.subset hr)
  · rw [if_neg hc]

theorem exceptFilter_ok_of_no_error {p : Row → Except String Bool}
    {rows : List Row} (h : ∀ r ∈ rows, ∃ b, p r = .ok b) :
    ∃ out, exceptFilter p rows = .ok out := by
  induction rows with
  | nil => exact ⟨[], rfl⟩
  | cons r rs ih =>
    obtain ⟨b, hb⟩ := h r (List.mem_cons_self r rs)
    obtain ⟨rest, hrest⟩ := ih fun x hx => h x (List.mem_cons_of_mem r hx)
    exact ⟨if b then r :: rest else rest, by simp [exceptFilter, hb, hrest]⟩

/-- A nullable cell is present and lies inside `[lo, hi]`. -/
def withinB (v : Option ℚ) (lo hi : ℚ) : Bool :=
  match v with
  | none => false
  | some q => decide (lo ≤ q) && decide (q ≤ hi)

theorem withinB_ge {v : Option ℚ} {lo hi : ℚ} (h : withinB v lo hi = true) :
    cmpGE v lo = true := by
  cases v with
  | none => simp [withinB] at h
  | some q =>
    simp only [withinB, Bool.and_eq_true, decide_eq_true_eq] at h
    simp [cmpGE, h.1]

theorem withinB_le {v : Option ℚ} {lo hi : ℚ} (h : withinB v lo hi = true) :
    cmpLE v hi = true := by
  cases v with
  | none => simp [withinB] at h
  | some q =>
    simp only [withinB, Bool.and_eq_true, decide_eq_true_eq] at h
    simp [cmpLE, h.2]

theorem cmp_range_conflict {v : Option ℚ} {mn mx : ℚ} (hlt : mx < mn)
    (hge : cmpGE v mn = true) (hle : cmpLE v mx = true) : False := by
  cases v with
  | none => simp [cmpGE] at hge
  | some q =>
    simp only [cmpGE, decide_eq_true_eq] at hge
    simp only [cmpLE, decide_eq_true_eq] at hle
    exact absurd (le_trans hge hle) (not_le.mpr hlt)

/-! ## C1 — the no-op filter set -/

/-- C1, counterexample input: a table whose only row has tempo 300, above
the default tempo range `[0, 220]`. -/
def C1badTable : Table :=
  { hasPopularity := false, hasEnergy := false, hasDanceability := false,
    hasValence := false, hasTempo := true, hasDurationMs := false,
    rows := [{ blankRow with tempo := some 300 }] }

/-- C1 (counterexample): `filter_data` with the no-op filter set is not the
identity on every table — the default numeric ranges are real filters, so a
present `tempo` column containing 300 (outside the default `[0, 220]`)
loses that row. -/
theorem noop_filter_not_identity :
    filter_data C1badTable noopFilters ≠ .ok C1badTable := by decide

/-- C1 (amended): the no-op filter set (both multi-selects at the `"all"`
sentinel, every numeric range at its full-range default) is the identity on
every table whose rows, in each *present* numeric column, hold a present
value inside that default range (popularity in `[0,100]`,
energy/danceability/valence in `[0,1]`, tempo in `[0,220]`, duration in
`[18,5400]` seconds).  Rows with missing values or values outside a default
range are dropped even by the "no-op" filters. -/
theorem noop_filter_identity (T : Table)
    (h : ∀ r ∈ T.rows,
      (T.hasPopularity = true → withinB r.popularity 0 100 = true) ∧
      (T.hasEnergy = true → withinB r.energy 0 1 = true) ∧
      (T.hasDanceability = true → withinB r.danceability 0 1 = true) ∧
      (T.hasValence = true → withinB r.valence 0 1 = true) ∧
      (T.hasTempo = true → withinB r.tempo 0 220 = true) ∧
      (T.hasDurationMs = true →
        withinB (r.duration_ms.map (fun d => d / 1000)) 18 5400 = true)) :
    filter_data T noopFilters = .ok T := by
  have hg : genreStep noopFilters T.rows = .ok T.rows := by
    rw [genreStep, if_neg]
    simp [genreActive, noopFilters]
  rw [filter_data, hg]
  have hself : condFilters (filterSpec T noopFilters) T.rows = T.rows := by
    apply condFilters_of_forall
    intro r hr cp hcp hc
    obtain ⟨h1, h2, h3, h4, h5, h6⟩ := h r hr
    simp only [filterSpec, List.mem_cons, List.not_mem_nil, or_false] at hcp
    rcases hcp with rfl | rfl | rfl | rfl | rfl | rfl | rfl | rfl | rfl | rfl | rfl | rfl
    · simp [artistActive, noopFilters] at hc
    · exact withinB_ge (h1 hc)
    · exact withinB_le (h1 hc)
    · exact withinB_ge (h2 hc)
    · exact withinB_le (h2 hc)
    · exact withinB_ge (h3 hc)
    · exact withinB_le (h3 hc)
    · exact withinB_ge (h4 hc)
    · exact withinB_le (h4 hc)
    · exact withinB_ge (h5 hc)
    · exact withinB_le (h5 hc)
    · show durationPred noopFilters.duration_min noopFilters.duration_max r = true
      rw [durationPred, Bool.and_eq_true]
      exact ⟨withinB_ge (h6 hc), withinB_le (h6 hc)⟩
  show Except.ok { T with rows := condFilters (filterSpec T noopFilters) T.rows }
      = Except.ok T
  rw [hself]

/-- C1 witness row: all filtered values present and inside the default
ranges. -/
def C1goodRow : Row :=
  { blankRow with
    popularity := some 50, energy := some 1, danceability := some 0,
    valence := some 1, tempo := some 120 }

/-- C1 witness input: the filterable columns other than duration present,
one row entirely inside the default ranges. -/
def C1goodTable : Table :=
  { hasPopularity := true, hasEnergy := true, hasDanceability := true,
    hasValence := true, hasTempo := true, hasDurationMs := false,
    rows := [C1goodRow] }

/-- Witness for the amended C1 at a concrete in-range table. -/
theorem noop_filter_identity_witness :
    filter_data C1goodTable noopFilters = .ok C1goodTable :=
  noop_filter_identity C1goodTable (by decide)

/-! ## C3 — inverted numeric ranges -/

/-- Some numeric range filter has min strictly above max while its column
is present. -/
def someRangeInverted (T : Table) (F : Filters) : Prop :=
  (T.hasPopularity = true ∧ F.popularity_max < F.popularity_min) ∨
  (T.hasEnergy = true ∧ F.energy_max < F.energy_min) ∨
  (T.hasDanceability = true ∧ F.danceability_max < F.danceability_min) ∨
  (T.hasValence = true ∧ F.valence_max < F.valence_min) ∨
  (T.hasTempo = true ∧ F.tempo_max < F.tempo_min) ∨
  (T.hasDurationMs = true ∧ F.duration_max < F.duration_min)

/-- C3 counterexample input: the only row has a NaN `genres` cell. -/
def C3badTable : Table :=
  { hasPopularity := false, hasEnergy := false, hasDanceability := false,
    hasValence := false, hasTempo := true, hasDurationMs := false,
    rows := [blankRow] }

/-- C3 counterexample filters: an active genre filter together with an
inverted tempo range. -/
def C3badFilters : Filters :=
  { noopFilters with
    genre_multiselect_filter := ["rock"],
    tempo_min := 100, tempo_max := 50 }

/-- C3 (counterexample): with an inverted tempo range on a present tempo
column, `filter_data` can still raise instead of returning an empty set —
an active genre filter evaluates `genre in x` on a NaN `genres` cell, which
is truthy in Python and not a string, so the mask lambda raises `TypeError`
before any numeric range is consulted. -/
theorem inverted_range_error_counterexample :
    C3badFilters.tempo_max < C3badFilters.tempo_min
    ∧ C3badTable.hasTempo = true
    ∧ filter_data C3badTable C3badFilters
        = .error "TypeError: argument of type float is not iterable" := by
  decide

/-- C3 (amended): whenever the genre-mask step itself cannot fail (the
genre filter is inactive, or every `genres` cell is a present string), a
filter set with min strictly above max on some present numeric column makes
`filter_data` return successfully with zero rows — an empty result set,
not an error. -/
theorem inverted_range_empty (T : Table) (F : Filters)
    (hgen : genreActive F = false ∨ ∀ r ∈ T.rows, r.genres ≠ none)
    (hinv : someRangeInverted T F) :
    filter_data T F = .ok { T with rows := [] } := by
  have hgok : ∃ rows1, genreStep F T.rows = .ok rows1 := by
    rcases hgen with hgen | hgen
    · exact ⟨T.rows, by simp [genreStep, hgen]⟩
    · by_cases hc : genreActive F = true
      · rw [genreStep, if_pos hc]
        apply exceptFilter_ok_of_no_error
        intro r hr
        cases hx : r.genres with
        | none => exact absurd hx (hgen r hr)
        | some s =>
          exact ⟨if s ≠ "" ∧ s ≠ "[]"
                  then F.genre_multiselect_filter.any (fun g => substrB g s)
                  else false, rfl⟩
      · exact ⟨T.rows, by simp [genreStep, hc]⟩
  obtain ⟨rows1, hg⟩ := hgok
  have hempty : condFilters (filterSpec T F) rows1 = [] := by
    apply List.eq_nil_iff_forall_not_mem.mpr
    intro r hr
    obtain ⟨-, hall⟩ := condFilters_mem hr
    rcases hinv with ⟨hc, hlt⟩ | ⟨hc, hlt⟩ | ⟨hc, hlt⟩ | ⟨hc, hlt⟩ | ⟨hc, hlt⟩ | ⟨hc, hlt⟩
    · exact cmp_range_conflict hlt
        (hall (T.hasPopularity, fun r => cmpGE r.popularity F.popularity_min)
          (by simp [filterSpec]) hc)
        (hall (T.hasPopularity, fun r => cmpLE r.popularity F.popularity_max)
          (by simp [filterSpec]) hc)
    · exact cmp_range_conflict hlt
        (hall (T.hasEnergy, fun r => cmpGE r.energy F.energy_min)
          (by simp [filterSpec]) hc)
        (hall (T.hasEnergy, fun r => cmpLE r.energy F.energy_max)
          (by simp [filterSpec]) hc)
    · exact cmp_range_conflict hlt
        (hall (T.hasDanceability, fun r => cmpGE r.danceability F.danceability_min)
          (by simp [filterSpec]) hc)
        (hall (T.hasDanceability, fun r => cmpLE r.danceability F.danceability_max)
          (by simp [filterSpec]) hc)
    · exact cmp_range_conflict hlt
        (hall (T.hasValence, fun r => cmpGE r.valence F.valence_min)
          (by simp [filterSpec]) hc)
        (hall (T.hasValence, fun r => cmpLE r.valence F.valence_max)
          (by simp [filterSpec]) hc)
    · exact cmp_range_conflict hlt
        (hall (T.hasTempo, fun r => cmpGE r.tempo F.tempo_min)
          (by simp [filterSpec]) hc)
        (hall (T.hasTempo, fun r => cmpLE r.tempo F.tempo_max)
          (by simp [filterSpec]) hc)
    · have hd : durationPred F.duration_min F.duration_max r = true :=
        hall (T.hasDurationMs, durationPred F.duration_min F.duration_max)
          (by simp [filterSpec]) hc
      rw [durationPred, Bool.and_eq_true] at hd
      exact cmp_range_conflict hlt hd.1 hd.2
  rw [filter_data, hg]
  show Except.ok { T with rows := condFilters (filterSpec T F) rows1 }
      = Except.ok { T with rows := [] }
  rw [hempty]

/-- C3 witness input: an inactive genre filter, a present tempo column, and
an inverted tempo range `[100, 50]`. -/
def C3goodTable : Table :=
  { hasPopularity := false, hasEnergy := false, hasDanceability := false,
    hasValence := false, hasTempo := true, hasDurationMs := false,
    rows := [{ blankRow with genres := some "['rock']", tempo := some 120 }] }

/-- C3 witness filters: everything default except the inverted tempo
range. -/
def C3goodFilters : Filters :=
  { noopFilters with tempo_min := 100, tempo_max := 50 }

/-- Witness for the amended C3: the inverted tempo range empties the table
without an error. -/
theorem inverted_range_empty_witness :
    filter_data C3goodTable C3goodFilters = .ok { C3goodTable with rows := [] } :=
  inverted_range_empty C3goodTable C3goodFilters (Or.inl (by decide))
    (Or.inr (Or.inr (Or.inr (Or.inr (Or.inl ⟨rfl, by decide⟩)))))

/-! ## C9 — idempotence -/

/-- C9 (confirmed): `filter_data` is idempotent — running the same filter
set a second time over its own output changes nothing (and an error on the
first run is the common result of both sides). -/
theorem filter_data_idempotent (T : Table) (F : Filters) :
    (filter_data T F).bind (fun T2 => filter_data T2 F) = filter_data T F := by
  cases hg : genreStep F T.rows with
  | error e => rw [filter_data, hg]; rfl
  | ok rows1 =>
    rw [filter_data, hg]
    have hsub : (condFilters (filterSpec T F) rows1).Sublist rows1 :=
      condFilters_sublist _ _
    have hg2 : genreStep F (condFilters (filterSpec T F) rows1)
        = .ok (condFilters (filterSpec T F) rows1) := genreStep_idem hg hsub
    have hself : condFilters (filterSpec T F) (condFilters (filterSpec T F) rows1)
        = condFilters (filterSpec T F) rows1 :=
      condFilters_of_forall fun r hr cp hcp hc => (condFilters_mem hr).2 cp hcp hc
    show filter_data { T with rows := condFilters (filterSpec T F) rows1 } F
        = Except.ok { T with rows := condFilters (filterSpec T F) rows1 }
    rw [filter_data]
    have hg2' : genreStep F ({ T with rows := condFilters (filterSpec T F) rows1 } : Table).rows
        = .ok (condFilters (filterSpec T F) rows1) := hg2
    rw [hg2']
    show Except.ok
        { T with rows := condFilters (filterSpec T F)
                           (condFilters (filterSpec T F) rows1) }
      = Except.ok { T with rows := condFilters (filterSpec T F) rows1 }
    rw [hself]

/-! ## C10 — the output is a row-subset of the input -/

/-- C10 (confirmed): every successful `filter_data` result is an
order-preserving subsequence of the input rows, with every surviving row
unchanged; hence the filtered count shown by `display_count` never exceeds
the total count. -/
theorem filter_data_subset (T : Table) (F : Filters) (T2 : Table)
    (h : filter_data T F = .ok T2) :
    T2.rows.Sublist T.rows ∧ T2.rows.length ≤ T.rows.length
    ∧ displayCounts T F = .ok (T2.rows.length, T.rows.length) := by
  cases hg : genreStep F T.rows with
  | error e => rw [filter_data, hg] at h; cases h
  | ok rows1 =>
    rw [filter_data, hg] at h
    cases h
    have hsub : (condFilters (filterSpec T F) rows1).Sublist T.rows :=
      (condFilters_sublist _ _).trans (genreStep_ok_sublist hg)
    exact ⟨hsub, hsub.length_le, by simp [displayCounts, filter_data, hg, Except.map]⟩

/-- C10 witness input: one in-range row, one row with a missing popularity
cell (dropped by the present popularity filter). -/
def C10table : Table :=
  { hasPopularity := true, hasEnergy := false, hasDanceability := false,
    hasValence := false, hasTempo := false, hasDurationMs := false,
    rows := [{ blankRow with popularity := some 50 },
             { blankRow with popularity := none, tempo := some 120 }] }

/-- The table `filter_data` actually returns on `C10table` under the
default filters. -/
def C10result : Table :=
  { C10table with rows := [{ blankRow with popularity := some 50 }] }

/-- Witness for C10 at a concrete table: the computed output is a sublist
of the input of no greater length. -/
theorem filter_data_subset_witness :
    C10result.rows.Sublist C10table.rows
    ∧ C10result.rows.length ≤ C10table.rows.length
    ∧ displayCounts C10table noopFilters
        = .ok (C10result.rows.length, C10table.rows.length) :=
  filter_data_subset C10table noopFilters C10result (by decide)

/-! ## C4 — the genre list parser -/

/-- Python `str.strip(chars)`: remove leading and trailing characters that
belong to `cs`. -/
def pyStrip (cs : List Char) (l : List Char) : List Char :=
  ((l.dropWhile (fun c => cs.contains c)).reverse.dropWhile
    (fun c => cs.contains c)).reverse

/-- The whitespace characters removed by a bare Python `str.strip()`. -/
def pyWhitespace : List Char := [' ', '\t', '\n', '\r', '\x0b', '\x0c']

/-- Python `s.split(",")`: split on every comma, keeping empty pieces. -/
def splitOnComma : List Char → List (List Char)
  | [] => [[]]
  | c :: cs =>
    if c = ',' then [] :: splitOnComma cs
    else
      match splitOnComma cs with
      | [] => [[c]]
      | g :: gs => (c :: g) :: gs

/-- The genre list parser shared by the genre-aware charts
(`Genre_Evolution_line_chart._update_logic` lines 171-193,
`Filter_component.component` lines 70-79): the `"[]"` and NaN sentinels
yield zero tokens; otherwise strip the outer bracket characters, split on
commas, strip whitespace and then quote characters from each piece, and
drop empty pieces. -/
def parseGenres : Option String → List String
  | none => []
  | some s =>
    if s = "[]" then []
    else
      let l := pyStrip ['[', ']'] s.toList
      if l = [] then []
      else
        ((splitOnComma l).map
            (fun g => String.mk (pyStrip ['\'', '"'] (pyStrip pyWhitespace g)))).filter
          (fun g => g ≠ "")

/-- C4 (confirmed): the genre parser matches the stated examples — the
empty-list literal, a two-element quoted list, and a NaN cell — and it is
total by construction: it is a Lean function on every nullable string,
mirroring source string operations none of which can raise (the
`try/except continue` around them in the source is unreachable). -/
theorem parseGenres_examples :
    parseGenres (some "[]") = []
    ∧ parseGenres (some "['pop', 'rock']") = ["pop", "rock"]
    ∧ parseGenres none = [] := by decide

/-! ## C2 — the per-component error boundary -/

/-- A rendered figure, reduced to the fields the update callbacks set on
their sentinel figures. -/
structure Fig where
  title : String
  annotation : String
deriving DecidableEq

/-- The generic error figure built at the top of a chart `update`
callback. -/
def errorFig : Fig :=
  { title := "Error in chart",
    annotation := "An error occurred while updating this chart" }

/-- `Audio_correlation_heatmap_chart.update` (lines 313-329): run the inner
aggregation logic; on success return its figure and summary together with
an empty error string, and on any exception return the error figure, the
diagnostic `f"Error updating chart: {str(e)}\n{traceback.format_exc()}"`
and an empty summary.  `inner` is the outcome of `_update_logic(**kwargs)`
(an `Except.error` holding `str(e)` when it raises) and `trace` stands for
`traceback.format_exc()`. -/
def heatmapUpdate (inner : Except String (Fig × Unit)) (trace : String) :
    Fig × String × Unit :=
  match inner with
  | .ok fs => (fs.1, "", fs.2)
  | .error e => (errorFig, "Error updating chart: " ++ e ++ "\n" ++ trace, ())

/-- `Data_cards.update` (lines 51-84): on success the three formatted card
values; on any exception the sentinel `["Error", "Error", "Error"]` — the
diagnostic is printed and logged but is not part of the returned
outputs. -/
def dataCardsUpdate (inner : Except String (String × String × String)) :
    String × String × String :=
  match inner with
  | .ok v => v
  | .error _ => ("Error", "Error", "Error")

/-- C2 (counterexample): the claim fails for the data-cards component
(`Data_cards.update`, one of the update callbacks it names): when the inner
logic raises with message `"boom"`, the callback returns the three
`"Error"` sentinel card values, and no returned output is a diagnostic
containing the message. -/
theorem error_boundary_counterexample :
    dataCardsUpdate (.error "boom") = ("Error", "Error", "Error")
    ∧ ¬ ("boom".toList <:+: "Error".toList) :=
  ⟨rfl, by decide⟩

/-- C2 (amended): no exception escapes an update callback; chart callbacks
with an error output (the correlation heatmap) return, on an exception,
the error figure plus a non-empty diagnostic string containing both the
exception message and the stack trace, and an empty error string on
success; the data-cards callback instead maps every exception to the
`"Error"` sentinel triple, its diagnostic being only logged. -/
theorem error_boundary_amended :
    (∀ e trace : String,
      heatmapUpdate (.error e) trace
          = (errorFig, "Error updating chart: " ++ e ++ "\n" ++ trace, ())
      ∧ ("Error updating chart: " ++ e ++ "\n" ++ trace) ≠ ""
      ∧ e.toList <:+: ("Error updating chart: " ++ e ++ "\n" ++ trace).toList
      ∧ trace.toList <:+: ("Error updating chart: " ++ e ++ "\n" ++ trace).toList)
    ∧ (∀ (f : Fig) (trace : String), heatmapUpdate (.ok (f, ())) trace = (f, "", ()))
    ∧ (∀ e : String, dataCardsUpdate (.error e) = ("Error", "Error", "Error"))
    ∧ (∀ v, dataCardsUpdate (.ok v) = v) := by
  refine ⟨fun e trace => ⟨rfl, ?_, ?_, ?_⟩, fun f t => rfl, fun e => rfl, fun v => rfl⟩
  · intro h
    have hl := congrArg String.length h
    rw [String.length_append, String.length_append, String.length_append] at hl
    have h22 : ("Error updating chart: " : String).length = 22 := rfl
    have h1 : ("\n" : String).length = 1 := rfl
    have h0 : ("" : String).length = 0 := rfl
    rw [h22, h1, h0] at hl
    omega
  · refine ⟨"Error updating chart: ".toList, ("\n" ++ trace).toList, ?_⟩
    show "Error updating chart: ".data ++ e.data ++ ("\n" ++ trace).data
        = ("Error updating chart: " ++ e ++ "\n" ++ trace).data
    simp [String.data_append]
  · refine ⟨("Error updating chart: " ++ e ++ "\n").toList, [], ?_⟩
    show ("Error updating chart: " ++ e ++ "\n").data ++ trace.data ++ []
        = ("Error updating chart: " ++ e ++ "\n" ++ trace).data
    simp [String.data_append]

/-! ## C5 and C7 — the correlation heatmap aggregator -/

/-- The nine audio features offered by the correlation heatmap checklist. -/
inductive Feature where
  | acousticness | danceability | energy | instrumentalness
  | liveness | loudness | speechiness | tempo | valence
deriving DecidableEq

/-- Feature-column lookup.  The source columns are loaded as numeric, so
`pd.to_numeric(..., errors="coerce")` maps a present value to itself and a
missing one to NaN. -/
def featVal (f : Feature) (r : Row) : Option ℚ :=
  match f with
  | .acousticness => r.acousticness
  | .danceability => r.danceability
  | .energy => r.energy
  | .instrumentalness => r.instrumentalness
  | .liveness => r.liveness
  | .loudness => r.loudness
  | .speechiness => r.speechiness
  | .tempo => r.tempo
  | .valence => r.valence

/-- `feature_data.dropna()`: keep rows whose selected feature cells are all
present. -/
def dropnaRows (feats : List Feature) (rows : List Row) : List Row :=
  rows.filter (fun r => feats.all (fun f => (featVal f r).isSome))

/-- One column of the cleaned feature frame. -/
def featColumn (feats : List Feature) (rows : List Row) (f : Feature) : List ℚ :=
  (dropnaRows feats rows).filterMap (featVal f)

/-- Mean of a rational column (the pandas mean of a non-empty series). -/
def qmean (xs : List ℚ) : ℚ := xs.sum / xs.length

/-- Centered cross-product Σ (xᵢ - a)(yᵢ - b) over zipped columns. -/
def centeredProd (a b : ℚ) (xs ys : List ℚ) : ℚ :=
  ((xs.zip ys).map (fun p => (p.1 - a) * (p.2 - b))).sum

/-- Centered second moment Σ (xᵢ - x̄)(yᵢ - ȳ). -/
def sxy (xs ys : List ℚ) : ℚ := centeredProd (qmean xs) (qmean ys) xs ys

/-- Pearson correlation of two equal-length complete columns — the
quantity `DataFrame.corr()` computes entrywise (constant normalization
factors cancel between numerator and denominator).  Real-valued because of
the square roots, hence not executable. -/
noncomputable def pearson (xs ys : List ℚ) : ℝ :=
  ((sxy xs ys : ℚ) : ℝ)
    / (Real.sqrt ((sxy xs xs : ℚ) : ℝ) * Real.sqrt ((sxy ys ys : ℚ) : ℝ))

/-- Entry (`f`, `g`) of the correlation matrix
`feature_data.corr()` computed by
`Audio_correlation_heatmap_chart._update_logic` (lines 196-219). -/
noncomputable def corrEntry (feats : List Feature) (rows : List Row) (f g : Feature) : ℝ :=
  pearson (featColumn feats rows f) (featColumn feats rows g)

/-- The distinct result variants of
`Audio_correlation_heatmap_chart._update_logic` (lines 159-299): the
no-data empty state, the fewer-than-two-features empty state, the
no-valid-numeric-data empty state, and a computed correlation matrix over
the named features (whose entries are `corrEntry` of those features). -/
inductive HeatmapResult where
  | noData
  | insufficientSelection
  | noValidData
  | matrix (feats : List Feature)
deriving DecidableEq

/-- The branch structure of
`Audio_correlation_heatmap_chart._update_logic` on an already-filtered
table: empty frame, then `not selected_features or len(selected) < 2`,
then empty frame after coercion and `dropna()`, else the correlation
matrix over the selected features. -/
def heatmapLogic (rows : List Row) (selected : List Feature) : HeatmapResult :=
  if rows.length = 0 then .noData
  else if selected = [] ∨ selected.length < 2 then .insufficientSelection
  else if (dropnaRows selected rows).length = 0 then .noValidData
  else .matrix selected

/-- C7 (confirmed): on a non-empty filtered table, fewer than two selected
features make the aggregator return the insufficient-selection sentinel and
never a correlation matrix (in particular no 1×1 matrix). -/
theorem heatmap_insufficient (rows : List Row) (selected : List Feature)
    (hrows : rows ≠ []) (hsel : selected.length < 2) :
    heatmapLogic rows selected = .insufficientSelection
    ∧ ∀ fs, heatmapLogic rows selected ≠ .matrix fs := by
  have h0 : ¬ (rows.length = 0) := fun h => hrows (List.length_eq_zero.mp h)
  have hval : heatmapLogic rows selected = .insufficientSelection := by
    rw [heatmapLogic, if_neg h0, if_pos (Or.inr hsel)]
  exact ⟨hval, fun fs h => by rw [hval] at h; cases h⟩

/-- Witness for C7: one non-empty table and exactly one selected
feature. -/
theorem heatmap_insufficient_witness :
    heatmapLogic [blankRow] [Feature.energy] = .insufficientSelection
    ∧ ∀ fs, heatmapLogic [blankRow] [Feature.energy] ≠ .matrix fs :=
  heatmap_insufficient [blankRow] [Feature.energy] (by decide) (by decide)

theorem centeredProd_comm (a b : ℚ) (xs ys : List ℚ) :
    centeredProd a b xs ys = centeredProd b a ys xs := by
  induction xs generalizing ys with
  | nil => cases ys <;> rfl
  | cons x xs ih =>
    cases ys with
    | nil => rfl
    | cons y ys =>
      show (x - a) * (y - b) + centeredProd a b xs ys
          = (y - b) * (x - a) + centeredProd b a ys xs
      rw [ih ys, mul_comm]

theorem sxy_comm (xs ys : List ℚ) : sxy xs ys = sxy ys xs := by
  rw [sxy, sxy, centeredProd_comm]

theorem centeredProd_self (a : ℚ) (xs : List ℚ) :
    centeredProd a a xs xs = (xs.map (fun x => (x - a) ^ 2)).sum := by
  induction xs with
  | nil => rfl
  | cons x xs ih =>
    show (x - a) * (x - a) + centeredProd a a xs xs
        = ((x :: xs).map (fun z => (z - a) ^ 2)).sum
    rw [List.map_cons, List.sum_cons, ih, sq]

theorem sum_sq_nonneg (a : ℚ) (xs : List ℚ) :
    0 ≤ (xs.map (fun x => (x - a) ^ 2)).sum :=
  List.sum_nonneg fun q hq => by
    obtain ⟨x, -, rfl⟩ := List.mem_map.mp hq
    exact sq_nonneg _

theorem eq_of_sum_sq_eq_zero {a : ℚ} {xs : List ℚ}
    (h : (xs.map (fun x => (x - a) ^ 2)).sum = 0) : ∀ x ∈ xs, x = a := by
  induction xs with
  | nil => intro x hx; cases hx
  | cons x xs ih =>
    rw [List.map_cons, List.sum_cons] at h
    have h1 : (0 : ℚ) ≤ (x - a) ^ 2 := sq_nonneg _
    have h2 : (0 : ℚ) ≤ (xs.map (fun z => (z - a) ^ 2)).sum := sum_sq_nonneg a xs
    have hx0 : (x - a) ^ 2 = 0 := le_antisymm (by linarith) h1
    have hrest : (xs.map (fun z => (z - a) ^ 2)).sum = 0 := by linarith
    intro y hy
    rcases List.mem_cons.mp hy with rfl | hy
    · exact sub_eq_zero.mp ((pow_eq_zero_iff (two_ne_zero)).mp hx0)
    · exact ih hrest y hy

/-- A column with at least two distinct values. -/
def nonConstant (xs : List ℚ) : Prop := ∃ x ∈ xs, ∃ y ∈ xs, x ≠ y

instance (xs : List ℚ) : Decidable (nonConstant xs) :=
  decidable_of_iff (∃ x ∈ xs, ∃ y ∈ xs, x ≠ y) Iff.rfl

theorem sxx_pos {xs : List ℚ} (h : nonConstant xs) : 0 < sxy xs xs := by
  have hrw : sxy xs xs = (xs.map (fun x => (x - qmean xs) ^ 2)).sum :=
    centeredProd_self (qmean xs) xs
  rw [hrw]
  rcases lt_or_eq_of_le (sum_sq_nonneg (qmean xs) xs) with hlt | heq
  · exact hlt
  · exfalso
    rcases h with ⟨x, hx, y, hy, hxy⟩
    have hall := eq_of_sum_sq_eq_zero heq.symm
    exact hxy ((hall x hx).trans (hall y hy).symm)

theorem pearson_comm (xs ys : List ℚ) : pearson xs ys = pearson ys xs := by
  rw [pearson, pearson, sxy_comm xs ys, mul_comm]

theorem pearson_self {xs : List ℚ} (h : nonConstant xs) : pearson xs xs = 1 := by
  rw [pearson]
  have hpos : (0 : ℝ) < ((sxy xs xs : ℚ) : ℝ) := by
    rw [Rat.cast_pos]
    exact sxx_pos h
  rw [Real.mul_self_sqrt hpos.le]
  exact div_self hpos.ne'

/-- C5 (confirmed): for a selection of at least two features all of whose
cleaned columns (numeric coercion, then dropping rows with any missing
selected value) are non-constant, the correlation matrix computed by the
heatmap aggregator is symmetric and carries exactly 1 on the diagonal. -/
theorem corr_matrix_symm_diag (selected : List Feature) (rows : List Row)
    (f g : Feature) (hlen : 2 ≤ selected.length)
    (hfmem : f ∈ selected) (hgmem : g ∈ selected)
    (hcols : ∀ c ∈ selected, nonConstant (featColumn selected rows c)) :
    corrEntry selected rows f g = corrEntry selected rows g f
    ∧ corrEntry selected rows f f = 1 :=
  ⟨pearson_comm _ _, pearson_self (hcols f hfmem)⟩

/-- C5 witness rows: two complete rows making both selected columns
non-constant. -/
def C5rows : List Row :=
  [{ blankRow with energy := some 0, danceability := some 1 },
   { blankRow with energy := some 1, danceability := some 0 }]

/-- Witness for C5 at two concrete features over two concrete rows. -/
theorem corr_matrix_symm_diag_witness :
    corrEntry [Feature.energy, Feature.danceability] C5rows
        Feature.energy Feature.danceability
      = corrEntry [Feature.energy, Feature.danceability] C5rows
        Feature.danceability Feature.energy
    ∧ corrEntry [Feature.energy, Feature.danceability] C5rows
        Feature.energy Feature.energy = 1 :=
  corr_matrix_symm_diag [Feature.energy, Feature.danceability] C5rows
    Feature.energy Feature.danceability (by decide) (by decide) (by decide)
    (by decide)

/-! ## C8 — per-feature min–max normalization (genre fingerprint) -/

/-- `np.min` of a feature column (the source only evaluates it on the
non-empty per-genre matrix; the empty case carries a junk value). -/
def npMin : List ℚ → ℚ
  | [] => 0
  | x :: xs => xs.foldl min x

/-- `np.max` of a feature column. -/
def npMax : List ℚ → ℚ
  | [] => 0
  | x :: xs => xs.foldl max x

/-- One feature column of the normalization loop of
`Genre_fingerprint_chart._update_logic` (lines 176-187):
`(v - min) / (max - min)` when `max > min`, else the constant 0.5. -/
def normalizeColumn (col : List ℚ) : List ℚ :=
  if npMin col < npMax col then
    col.map (fun v => (v - npMin col) / (npMax col - npMin col))
  else
    col.map (fun _ => 1 / 2)

theorem foldl_min_le_init (acc : ℚ) : ∀ l : List ℚ, l.foldl min acc ≤ acc
  | [] => le_refl acc
  | y :: l => le_trans (foldl_min_le_init (min acc y) l) (min_le_left acc y)

theorem foldl_min_le_mem (acc : ℚ) :
    ∀ l : List ℚ, ∀ v ∈ l, l.foldl min acc ≤ v
  | [], v, hv => absurd hv (List.not_mem_nil v)
  | y :: l, v, hv => by
    rcases List.mem_cons.mp hv with rfl | hv
    · exact le_trans (foldl_min_le_init (min acc v) l) (min_le_right acc v)
    · exact foldl_min_le_mem (min acc y) l v hv

theorem init_le_foldl_max (acc : ℚ) : ∀ l : List ℚ, acc ≤ l.foldl max acc
  | [] => le_refl acc
  | y :: l => le_trans (le_max_left acc y) (init_le_foldl_max (max acc y) l)

theorem mem_le_foldl_max (acc : ℚ) :
    ∀ l : List ℚ, ∀ v ∈ l, v ≤ l.foldl max acc
  | [], v, hv => absurd hv (List.not_mem_nil v)
  | y :: l, v, hv => by
    rcases List.mem_cons.mp hv with rfl | hv
    · exact le_trans (le_max_right acc v) (init_le_foldl_max (max acc v) l)
    · exact mem_le_foldl_max (max acc y) l v hv

theorem npMin_le {col : List ℚ} : ∀ v ∈ col, npMin col ≤ v := by
  intro v hv
  cases col with
  | nil => cases hv
  | cons x xs =>
    rcases List.mem_cons.mp hv with rfl | hv
    · exact foldl_min_le_init v xs
    · exact foldl_min_le_mem x xs v hv

theorem le_npMax {col : List ℚ} : ∀ v ∈ col, v ≤ npMax col := by
  intro v hv
  cases col with
  | nil => cases hv
  | cons x xs =>
    rcases List.mem_cons.mp hv with rfl | hv
    · exact init_le_foldl_max v xs
    · exact mem_le_foldl_max x xs v hv

/-- C8 (confirmed): for every non-empty feature column of the per-genre
averages matrix, the normalized values all lie in `[0, 1]`; and when the
column maximum equals its minimum, every normalized value is exactly
`0.5`. -/
theorem fingerprint_normalization (col : List ℚ) (hne : col ≠ []) :
    (∀ v ∈ normalizeColumn col, 0 ≤ v ∧ v ≤ 1)
    ∧ (npMax col = npMin col → ∀ v ∈ normalizeColumn col, v = 1 / 2) := by
  constructor
  · intro v hv
    rw [normalizeColumn] at hv
    by_cases hlt : npMin col < npMax col
    · rw [if_pos hlt] at hv
      obtain ⟨x, hx, rfl⟩ := List.mem_map.mp hv
      have h1 : npMin col ≤ x := npMin_le x hx
      have h2 : x ≤ npMax col := le_npMax x hx
      have hd : (0 : ℚ) < npMax col - npMin col := sub_pos.mpr hlt
      constructor
      · exact div_nonneg (sub_nonneg.mpr h1) hd.le
      · rw [div_le_one hd]
        exact sub_le_sub_right h2 _
    · rw [if_neg hlt] at hv
      obtain ⟨x, hx, rfl⟩ := List.mem_map.mp hv
      norm_num
  · intro heq v hv
    rw [normalizeColumn, if_neg (by rw [heq]; exact lt_irrefl _)] at hv
    obtain ⟨x, hx, rfl⟩ := List.mem_map.mp hv
    rfl

/-- Witness for C8 on a concrete two-genre column. -/
theorem fingerprint_normalization_witness :
    (∀ v ∈ normalizeColumn [0, 1], 0 ≤ v ∧ v ≤ 1)
    ∧ (npMax [0, 1] = npMin [0, 1] → ∀ v ∈ normalizeColumn [0, 1], v = 1 / 2) :=
  fingerprint_normalization [0, 1] (by decide)

/-! ## C6 — the group-and-average bar chart -/

/-- The pitch-class dictionary `key_names` of `Bar_chart._update_logic`
(line 154); `Series.map` over it yields NaN outside 0–11. -/
def keyName (k : ℕ) : Option String :=
  match k with
  | 0 => some "C"
  | 1 => some "C#"
  | 2 => some "D"
  | 3 => some "D#"
  | 4 => some "E"
  | 5 => some "F"
  | 6 => some "F#"
  | 7 => some "G"
  | 8 => some "G#"
  | 9 => some "A"
  | 10 => some "A#"
  | 11 => some "B"
  | _ => none

/-- The `mode_names` dictionary (line 160). -/
def modeName (m : ℕ) : Option String :=
  match m with
  | 0 => some "Minor"
  | 1 => some "Major"
  | _ => none

/-- The three group-by branches of `Bar_chart._update_logic`. -/
inductive GroupKind where
  | artists | key | mode
deriving DecidableEq

/-- The categorical key a row is grouped under: the raw artist value, the
pitch-class name of `key`, or Major/Minor of `mode`; rows mapping to NaN
are dropped by `groupby`. -/
def rowGroupKey (g : GroupKind) (r : Row) : Option String :=
  match g with
  | .artists => r.artists
  | .key => r.key.bind keyName
  | .mode => r.mode.bind modeName

/-- Sorted insertion of a key into a deduplicated ascending key list. -/
def insertKeySorted (k : String) : List String → List String
  | [] => [k]
  | x :: xs =>
    if k = x then x :: xs
    else if k < x then k :: x :: xs
    else x :: insertKeySorted k xs

/-- The group keys in `groupby` iteration order: the distinct non-NaN keys
in ascending order (`groupby` sorts keys by default). -/
def groupKeys (g : GroupKind) (rows : List Row) : List String :=
  rows.foldl (fun acc r =>
    match rowGroupKey g r with
    | none => acc
    | some k => insertKeySorted k acc) []

/-- Mean popularity of one group
(`df.groupby(...)["popularity"].mean()`; NaN popularity cells are
skipped by the pandas mean). -/
def groupMean (g : GroupKind) (rows : List Row) (k : String) : ℚ :=
  qmean ((rows.filter (fun r => rowGroupKey g r = some k)).filterMap Row.popularity)

/-- The grouped frame `grouped` of `Bar_chart._update_logic`
(lines 152-167): one `(group, mean popularity)` row per key, in groupby
iteration order. -/
def grouped (g : GroupKind) (rows : List Row) : List (String × ℚ) :=
  (groupKeys g rows).map (fun k => (k, groupMean g rows k))


/-- The contract numpy documents for `argsort` under every `kind`: the
result is a permutation of the input that is ascending in the sort key.
The default `kind="quicksort"` used by `sort_values` (an introsort) is
documented as not stable, so beyond this contract — in particular on the
relative order of equal keys — the source fixes no behaviour. -/
def ArgsortKernel (kernel : List (String × ℚ) → List (String × ℚ)) : Prop :=
  ∀ l : List (String × ℚ),
    (kernel l).Perm l
    ∧ (kernel l).Pairwise (fun u v : String × ℚ => u.2 ≤ v.2)

/-- `grouped.sort_values("popularity", ascending=False)` (line 169):
pandas `nargsort` reverses the values, argsorts them ascending with the
host's kernel, and reverses the resulting indexer.  The kernel is a
parameter because the source's default `kind="quicksort"` determines
nothing about ties. -/
def pandasSortDescWith (kernel : List (String × ℚ) → List (String × ℚ))
    (l : List (String × ℚ)) : List (String × ℚ) :=
  (kernel l.reverse).reverse

/-- The aggregation core of `Bar_chart._update_logic` (lines 152-169):
group, mean, sort descending with the host's argsort kernel,
`head(limit)`. -/
def barAggregateWith (kernel : List (String × ℚ) → List (String × ℚ))
    (g : GroupKind) (rows : List Row) (n : ℕ) : List (String × ℚ) :=
  (pandasSortDescWith kernel (grouped g rows)).take n

/-- Insertion before the first entry of no smaller mean. -/
def ordInsert (p : String × ℚ) : List (String × ℚ) → List (String × ℚ)
  | [] => [p]
  | q :: qs => if p.2 ≤ q.2 then p :: q :: qs else q :: ordInsert p qs

/-- One kernel satisfying the argsort contract: an insertion sort that
keeps equal keys in input order.  It only witnesses that the contract is
satisfiable; it is not claimed to be numpy's introsort. -/
def sortAsc : List (String × ℚ) → List (String × ℚ)
  | [] => []
  | p :: ps => ordInsert p (sortAsc ps)

/-- Insertion behind every entry of no larger mean. -/
def ordInsertLate (p : String × ℚ) : List (String × ℚ) → List (String × ℚ)
  | [] => [p]
  | q :: qs => if p.2 < q.2 then p :: q :: qs else q :: ordInsertLate p qs

/-- A second kernel satisfying the argsort contract, this one moving each
element behind its ties; together with `sortAsc` it shows the contract
leaves the tie order open. -/
def sortAscLate : List (String × ℚ) → List (String × ℚ)
  | [] => []
  | p :: ps => ordInsertLate p (sortAscLate ps)

theorem ordInsert_perm (p : String × ℚ) (l : List (String × ℚ)) :
    (ordInsert p l).Perm (p :: l) := by
  induction l with
  | nil => exact List.Perm.refl _
  | cons q qs ih =>
    by_cases hpq : p.2 ≤ q.2
    · rw [ordInsert, if_pos hpq]
    · rw [ordInsert, if_neg hpq]
      exact (ih.cons q).trans (List.Perm.swap p q qs)

theorem sortAsc_perm (l : List (String × ℚ)) : (sortAsc l).Perm l := by
  induction l with
  | nil => exact List.Perm.refl _
  | cons p ps ih => exact (ordInsert_perm p (sortAsc ps)).trans (ih.cons p)

theorem sorted_ordInsert (p : String × ℚ) (l : List (String × ℚ))
    (h : l.Pairwise (fun u v : String × ℚ => u.2 ≤ v.2)) :
    (ordInsert p l).Pairwise (fun u v : String × ℚ => u.2 ≤ v.2) := by
  induction l with
  | nil => simp [ordInsert]
  | cons q qs ih =>
    rw [List.pairwise_cons] at h
    by_cases hpq : p.2 ≤ q.2
    · rw [ordInsert, if_pos hpq]
      refine List.Pairwise.cons ?_ (List.Pairwise.cons h.1 h.2)
      intro v hv
      rcases List.mem_cons.mp hv with rfl | hv
      · exact hpq
      · exact le_trans hpq (h.1 v hv)
    · rw [ordInsert, if_neg hpq]
      refine List.Pairwise.cons ?_ (ih h.2)
      intro v hv
      have hv' := ((ordInsert_perm p qs).mem_iff).mp hv
      rcases List.mem_cons.mp hv' with rfl | hv'
      · exact le_of_not_le hpq
      · exact h.1 v hv'

theorem sorted_sortAsc (l : List (String × ℚ)) :
    (sortAsc l).Pairwise (fun u v : String × ℚ => u.2 ≤ v.2) := by
  induction l with
  | nil => simp [sortAsc]
  | cons p ps ih => exact sorted_ordInsert p _ ih

theorem ordInsertLate_perm (p : String × ℚ) (l : List (String × ℚ)) :
    (ordInsertLate p l).Perm (p :: l) := by
  induction l with
  | nil => exact List.Perm.refl _
  | cons q qs ih =>
    by_cases hpq : p.2 < q.2
    · rw [ordInsertLate, if_pos hpq]
    · rw [ordInsertLate, if_neg hpq]
      exact (ih.cons q).trans (List.Perm.swap p q qs)

theorem sortAscLate_perm (l : List (String × ℚ)) : (sortAscLate l).Perm l := by
  induction l with
  | nil => exact List.Perm.refl _
  | cons p ps ih => exact (ordInsertLate_perm p (sortAscLate ps)).trans (ih.cons p)

theorem sorted_ordInsertLate (p : String × ℚ) (l : List (String × ℚ))
    (h : l.Pairwise (fun u v : String × ℚ => u.2 ≤ v.2)) :
    (ordInsertLate p l).Pairwise (fun u v : String × ℚ => u.2 ≤ v.2) := by
  induction l with
  | nil => simp [ordInsertLate]
  | cons q qs ih =>
    rw [List.pairwise_cons] at h
    by_cases hpq : p.2 < q.2
    · rw [ordInsertLate, if_pos hpq]
      refine List.Pairwise.cons ?_ (List.Pairwise.cons h.1 h.2)
      intro v hv
      rcases List.mem_cons.mp hv with rfl | hv
      · exact hpq.le
      · exact le_trans hpq.le (h.1 v hv)
    · rw [ordInsertLate, if_neg hpq]
      refine List.Pairwise.cons ?_ (ih h.2)
      intro v hv
      have hv' := ((ordInsertLate_perm p qs).mem_iff).mp hv
      rcases List.mem_cons.mp hv' with rfl | hv'
      · exact le_of_not_lt hpq
      · exact h.1 v hv'

theorem sorted_sortAscLate (l : List (String × ℚ)) :
    (sortAscLate l).Pairwise (fun u v : String × ℚ => u.2 ≤ v.2) := by
  induction l with
  | nil => simp [sortAscLate]
  | cons p ps ih => exact sorted_ordInsertLate p _ ih

theorem sortAsc_kernel : ArgsortKernel sortAsc :=
  fun l => ⟨sortAsc_perm l, sorted_sortAsc l⟩

theorem sortAscLate_kernel : ArgsortKernel sortAscLate :=
  fun l => ⟨sortAscLate_perm l, sorted_sortAscLate l⟩

/-- What the bar aggregator guarantees for every argsort kernel meeting
numpy's documented contract: the output is sorted by descending mean
popularity, holds at most `n` entries, and each entry is one of the group
keys paired with its group mean.  No tie-order conjunct appears here: the
contract does not determine the order of equal means. -/
theorem bar_topn_of_kernel
    (kernel : List (String × ℚ) → List (String × ℚ))
    (hk : ArgsortKernel kernel) (g : GroupKind) (rows : List Row) (n : ℕ) :
    List.Pairwise (fun p q : String × ℚ => q.2 ≤ p.2)
        (barAggregateWith kernel g rows n)
    ∧ (barAggregateWith kernel g rows n).length ≤ n
    ∧ ∀ p ∈ barAggregateWith kernel g rows n,
        p.1 ∈ groupKeys g rows ∧ p.2 = groupMean g rows p.1 := by
  have hsorted : (pandasSortDescWith kernel (grouped g rows)).Pairwise
      (fun p q : String × ℚ => q.2 ≤ p.2) := by
    rw [pandasSortDescWith, List.pairwise_reverse]
    exact (hk (grouped g rows).reverse).2
  refine ⟨hsorted.sublist (List.take_sublist n _), List.length_take_le n _, ?_⟩
  intro p hp
  have hp1 : p ∈ pandasSortDescWith kernel (grouped g rows) :=
    (List.take_sublist n _).subset hp
  have hp2 : p ∈ grouped g rows := by
    rw [pandasSortDescWith, List.mem_reverse] at hp1
    exact List.mem_reverse.mp
      (((hk (grouped g rows).reverse).1.mem_iff).mp hp1)
  obtain ⟨k, hkmem, hkeq⟩ := List.mem_map.mp hp2
  constructor
  · rw [← hkeq]
    exact hkmem
  · rw [← hkeq]

/-- The argsort contract alone does not determine the tie-break order of
`sort_values(..., ascending=False)`: two kernels that both satisfy it
produce the two opposite orders of a pair of equal-mean groups. -/
theorem tie_order_undetermined :
    ArgsortKernel sortAsc ∧ ArgsortKernel sortAscLate
    ∧ pandasSortDescWith sortAsc
        ([("A", 50), ("B", 50)] : List (String × ℚ))
        = [("A", 50), ("B", 50)]
    ∧ pandasSortDescWith sortAscLate
        ([("A", 50), ("B", 50)] : List (String × ℚ))
        = [("B", 50), ("A", 50)] :=
  ⟨sortAsc_kernel, sortAscLate_kernel, by decide, by decide⟩
